import Mathlib

/-!
A shallow embedding of the build orchestrator in `build.go` of the
`dotnet-publish` buildpack, together with proofs about its pipeline:
step ordering, fail-fast error propagation, credential-staging cleanup,
and the lifecycle of the ephemeral publish-output directory.

The collaborators reached through interfaces (`BuildpackYMLParser`,
`CommandConfigParser`, `PublishProcess`, `SourceRemover`) and the
OS calls (`ioutil.TempDir`, `os.RemoveAll`) are modelled by their
results, supplied as fields of `BuildDeps`; the orchestrator's own
control flow, filesystem writes and deferred cleanup are modelled
exactly as written in `build.go`.
-/

namespace DotnetPublish

/-- Go `error` values are modelled by their message strings. -/
abbrev GoErr := String

/-- A file in a directory: its name, contents, and the Unix permission
bits it was created with (the `perm` argument of `ioutil.WriteFile`). -/
structure FileEntry where
  name : String
  contents : String
  perm : Nat
deriving Repr, DecidableEq

/-- Directory lookup by file name (Go `ioutil.ReadFile` / `os.Stat`). -/
def lookupFile (files : List FileEntry) (name : String) : Option FileEntry :=
  files.find? (fun f => f.name == name)

/-- Go `ioutil.WriteFile`: truncate-and-write if the file exists (the
permission argument is only used when the file is created), create with
`perm` otherwise. -/
def writeFile (files : List FileEntry) (name contents : String) (perm : Nat) :
    List FileEntry :=
  match lookupFile files name with
  | some _ => files.map (fun f => if f.name == name then { f with contents := contents } else f)
  | none => files ++ [{ name := name, contents := contents, perm := perm }]

/-- Go `os.Remove` on a file of a directory. -/
def removeFile (files : List FileEntry) (name : String) : List FileEntry :=
  files.filter (fun f => !(f.name == name))

/-- A semantic version, modelled from `Masterminds/semver.Version`. -/
structure SemVer where
  major : Nat
  minor : Nat
  patch : Nat
  prerel : String
  buildMeta : String
deriving Repr, DecidableEq

/-- Modelled from `Masterminds/semver` `Version.IncMajor`: increments the major number,
sets minor and patch to 0, unsets prerelease and metadata. -/
def incMajor (v : SemVer) : SemVer :=
  { major := v.major + 1, minor := 0, patch := 0, prerel := "", buildMeta := "" }

def isNumeric (l : List Char) : Bool :=
  !l.isEmpty && l.all (fun c => c.isDigit)

def natOfDigits (l : List Char) : Nat :=
  l.foldl (fun n c => n * 10 + (c.toNat - 48)) 0

def validIdentChar (c : Char) : Bool :=
  c.isAlphanum || c == '-' || c == '.'

def validIdent (l : List Char) : Bool :=
  !l.isEmpty && l.all validIdentChar

/-- Split a character list at the first occurrence of `sep`; the second
component is `none` when `sep` does not occur. -/
def splitOnceChar (sep : Char) : List Char → List Char × Option (List Char)
  | [] => ([], none)
  | c :: cs =>
    if c = sep then ([], some cs)
    else
      match splitOnceChar sep cs with
      | (hd, rest) => (c :: hd, rest)

/-- Split a character list at every occurrence of `sep`. -/
def splitAllChar (sep : Char) : List Char → List (List Char)
  | [] => [[]]
  | c :: cs =>
    if c = sep then [] :: splitAllChar sep cs
    else
      match splitAllChar sep cs with
      | [] => [[c]]
      | hd :: t => (c :: hd) :: t

/-- Modelled from `Masterminds/semver` `NewVersion` (what `MustParse`
calls): an optional `v` prefix, one to three dot-separated numeric parts
(missing parts default to 0), an optional `-prerelease` and an optional
`+metadata` suffix.  Returns `none` exactly when `MustParse` would
panic. -/
def parseSemVerChars (l : List Char) : Option SemVer :=
  let l1 := match l with
    | 'v' :: rest => rest
    | _ => l
  let pm := splitOnceChar '+' l1
  let cp := splitOnceChar '-' pm.1
  let metaOk := match pm.2 with
    | none => true
    | some m => validIdent m
  let preOk := match cp.2 with
    | none => true
    | some p => validIdent p
  if metaOk && preOk then
    match splitAllChar '.' cp.1 with
    | [a] =>
      if isNumeric a then
        some { major := natOfDigits a, minor := 0, patch := 0,
               prerel := String.mk ((cp.2).getD []), buildMeta := String.mk ((pm.2).getD []) }
      else none
    | [a, b] =>
      if isNumeric a && isNumeric b then
        some { major := natOfDigits a, minor := natOfDigits b, patch := 0,
               prerel := String.mk ((cp.2).getD []), buildMeta := String.mk ((pm.2).getD []) }
      else none
    | [a, b, c] =>
      if isNumeric a && isNumeric b && isNumeric c then
        some { major := natOfDigits a, minor := natOfDigits b, patch := natOfDigits c,
               prerel := String.mk ((cp.2).getD []), buildMeta := String.mk ((pm.2).getD []) }
      else none
    | _ => none
  else none

/-- Result of `Masterminds/semver.MustParse` applied to a Go string. -/
def parseSemVer (s : String) : Option SemVer :=
  parseSemVerChars s.toList

instance exceptDecEq {ε α : Type} [DecidableEq ε] [DecidableEq α] :
    DecidableEq (Except ε α) := fun a b =>
  match a, b with
  | Except.error x, Except.error y =>
    if h : x = y then Decidable.isTrue (congrArg Except.error h)
    else Decidable.isFalse (fun hh => h (Except.error.inj hh))
  | Except.ok x, Except.ok y =>
    if h : x = y then Decidable.isTrue (congrArg Except.ok h)
    else Decidable.isFalse (fun hh => h (Except.ok.inj hh))
  | Except.error _, Except.ok _ => Decidable.isFalse (fun hh => Except.noConfusion hh)
  | Except.ok _, Except.error _ => Decidable.isFalse (fun hh => Except.noConfusion hh)

/-- A platform service binding (`packit/servicebindings.Binding`): its
kind (the contents of the binding's `type` file), its directory path,
and the files of that directory. -/
structure Binding where
  kind : String
  path : String
  files : List FileEntry
deriving Repr, DecidableEq

/-- The case-sensitive credential file name used in `build.go`. -/
def nugetConfigName : String := "NuGet.Config"

/-- Modelled from `packit/servicebindings` `Resolver.ResolveOne` with
provider `""` (which matches any provider): succeeds exactly when the
platform directory holds exactly one binding of the requested kind, and
returns an error both when there are none and when there are several. -/
def resolveOne (kind : String) (bindings : List Binding) : Except GoErr Binding :=
  match bindings.filter (fun b => b.kind == kind) with
  | [b] => Except.ok b
  | bs => Except.error ("expected exactly 1 binding of type " ++ kind ++
      " but found " ++ toString bs.length)

/-- Translation of `setupNuGetConfig` from `build.go`: read `NuGet.Config` from the
binding's directory (an absent file is an error), then write an
identical copy into the working directory under the same name with
permission bits `0o644`; returns the updated working directory. -/
def setupNuGetConfig (nugetConfig : Binding) (workingDir : List FileEntry) :
    Except GoErr (List FileEntry) :=
  match lookupFile nugetConfig.files nugetConfigName with
  | none => Except.error ("open " ++ nugetConfig.path ++ "/" ++ nugetConfigName ++
      ": no such file or directory")
  | some f => Except.ok (writeFile workingDir nugetConfigName f.contents 0o644)

/-- The binding block of `Build` (lines 73-83 of `build.go`): `none`
when `ResolveOne` returned an error (the block is skipped), otherwise
the result of `setupNuGetConfig`. -/
def stageNuGet (bindings : List Binding) (workingDir : List FileEntry) :
    Option (Except GoErr (List FileEntry)) :=
  match resolveOne "nuget" bindings with
  | Except.error _ => none
  | Except.ok b => some (setupNuGetConfig b workingDir)

/-- Observable side-effecting events of one `Build` invocation, in the
order they are performed.  Each constructor records the invocation of
the corresponding operation (whether or not it then fails), except
`createTempDir`, which records the successful creation of the ephemeral
output directory. -/
inductive Step where
  | resolveProjectPath : Step
  | parseBuildpackYML : Step
  | deprecationNotice : SemVer → Step
  | createTempDir : Step
  | parseFlags : Step
  | resolveBinding : Step
  | stageCredentials : Step
  | publish : String → Step
  | sourceRemove : Step
  | removeTempDir : Step
  | removeStagedCredential : Step
deriving Repr, DecidableEq

def Step.isPublish : Step → Bool
  | Step.publish _ => true
  | _ => false

def Step.isDeprecation : Step → Bool
  | Step.deprecationNotice _ => true
  | _ => false

def Step.isSourceRemove : Step → Bool
  | Step.sourceRemove => true
  | _ => false

/-- How one `Build` invocation returned to its caller. -/
inductive Outcome where
  | ok : Outcome
  | err : GoErr → Outcome
  | panicked : Outcome
deriving Repr, DecidableEq

/-- The observable result of one `Build` invocation: how it returned,
the ordered trace of its side-effecting steps, and the working
directory's files as modified by the orchestrator itself.  Mutations of
the working directory by the collaborators are outside the model: the
publish collaborator contractually must not mutate it, and the source
remover only runs on paths no claim constrains the files on. -/
structure BuildRun where
  outcome : Outcome
  trace : List Step
  files : List FileEntry
deriving Repr, DecidableEq

/-- Results of the collaborator and OS calls made by `Build`, one field
per call site. -/
structure BuildDeps where
  /-- Result of `os.LookupEnv("BP_DOTNET_PROJECT_PATH")`: `none` when unset. -/
  envProjectPath : Option String
  /-- Result of `buildpackYMLParser.ParseProjectPath(workingDir/buildpack.yml)`. -/
  ymlResult : Except GoErr String
  /-- Result of `ioutil.TempDir("", "dotnet-publish-output")`: the directory name. -/
  tempDirResult : Except GoErr String
  /-- Result of `configParser.ParseFlagsFromEnvVar("BP_DOTNET_PUBLISH_FLAGS")`. -/
  flagsResult : Except GoErr (List String)
  /-- The bindings under `context.Platform.Path`. -/
  bindings : List Binding
  /-- Result of `publishProcess.Execute(...)`. -/
  publishResult : Except GoErr Unit
  /-- Result of `sourceRemover.Remove(workingDir, tempDir, ".dotnet_root")`. -/
  sourceRemoveResult : Except GoErr Unit
  /-- Result of `os.RemoveAll(tempDir)`. -/
  removeAllResult : Except GoErr Unit
deriving Repr

/-- The parts of `packit.BuildContext` that `Build` reads: the working
directory's files and `context.BuildpackInfo.Version`. -/
structure BuildInput where
  workingDirFiles : List FileEntry
  buildpackVersion : String
deriving Repr

/-- The deferred `os.Remove(nugetConfigPath)` of line 82, applied to the
working directory on every exit path when a credential file was staged. -/
def finishFiles (staged : Bool) (files : List FileEntry) : List FileEntry :=
  if staged then removeFile files nugetConfigName else files

/-- The trace event of the deferred credential removal. -/
def finishTrace (staged : Bool) (t : List Step) : List Step :=
  if staged then t ++ [Step.removeStagedCredential] else t

/-- Lines 85-103 of `build.go`: publish, source removal, and removal of
the ephemeral output directory, each returning early on error; the
deferred credential cleanup runs on every exit. -/
def runTail (d : BuildDeps) (projectPath : String) (staged : Bool)
    (t : List Step) (files : List FileEntry) : BuildRun :=
  match d.publishResult with
  | Except.error e =>
      { outcome := Outcome.err e,
        trace := finishTrace staged (t ++ [Step.publish projectPath]),
        files := finishFiles staged files }
  | Except.ok _ =>
    match d.sourceRemoveResult with
    | Except.error e =>
        { outcome := Outcome.err e,
          trace := finishTrace staged (t ++ [Step.publish projectPath, Step.sourceRemove]),
          files := finishFiles staged files }
    | Except.ok _ =>
      match d.removeAllResult with
      | Except.error e =>
          { outcome := Outcome.err ("could not remove temp directory: " ++ e),
            trace := finishTrace staged
              (t ++ [Step.publish projectPath, Step.sourceRemove, Step.removeTempDir]),
            files := finishFiles staged files }
      | Except.ok _ =>
          { outcome := Outcome.ok,
            trace := finishTrace staged
              (t ++ [Step.publish projectPath, Step.sourceRemove, Step.removeTempDir]),
            files := finishFiles staged files }

/-- Lines 63-83 of `build.go`: flag parsing, then the optional binding
block.  An error from `ResolveOne` (zero or several matching bindings)
is not propagated: the `if err == nil` guard skips the whole block and
the build continues without staging. -/
def runFromFlags (d : BuildDeps) (c : BuildInput) (projectPath : String)
    (t : List Step) : BuildRun :=
  match d.flagsResult with
  | Except.error e =>
      { outcome := Outcome.err e, trace := t ++ [Step.parseFlags],
        files := c.workingDirFiles }
  | Except.ok _ =>
    match stageNuGet d.bindings c.workingDirFiles with
    | none =>
        runTail d projectPath false
          (t ++ [Step.parseFlags, Step.resolveBinding]) c.workingDirFiles
    | some (Except.error e) =>
        { outcome := Outcome.err e,
          trace := t ++ [Step.parseFlags, Step.resolveBinding, Step.stageCredentials],
          files := c.workingDirFiles }
    | some (Except.ok files2) =>
        runTail d projectPath true
          (t ++ [Step.parseFlags, Step.resolveBinding, Step.stageCredentials]) files2

/-- Lines 58-61 of `build.go`: creation of the ephemeral output
directory, its failure wrapped with context. -/
def runFromTemp (d : BuildDeps) (c : BuildInput) (projectPath : String)
    (t : List Step) : BuildRun :=
  match d.tempDirResult with
  | Except.error e =>
      { outcome := Outcome.err ("could not create temp directory: " ++ e),
        trace := t, files := c.workingDirFiles }
  | Except.ok _ => runFromFlags d c projectPath (t ++ [Step.createTempDir])

/-- The build function returned by `Build` in `build.go` (lines 39-104):
project-path resolution with the legacy `buildpack.yml` fallback and its
deprecation notice (a `semver.MustParse` panic when the buildpack
version is invalid), then the rest of the pipeline. -/
def Build (d : BuildDeps) (c : BuildInput) : BuildRun :=
  match d.envProjectPath with
  | some p => runFromTemp d c p [Step.resolveProjectPath]
  | none =>
    match d.ymlResult with
    | Except.error e =>
        { outcome := Outcome.err e,
          trace := [Step.resolveProjectPath, Step.parseBuildpackYML],
          files := c.workingDirFiles }
    | Except.ok p =>
      if p = "" then
        runFromTemp d c p [Step.resolveProjectPath, Step.parseBuildpackYML]
      else
        match parseSemVer c.buildpackVersion with
        | none =>
            { outcome := Outcome.panicked,
              trace := [Step.resolveProjectPath, Step.parseBuildpackYML],
              files := c.workingDirFiles }
        | some v =>
            runFromTemp d c p
              [Step.resolveProjectPath, Step.parseBuildpackYML,
               Step.deprecationNotice (incMajor v)]

/-- The pipeline-step names used by the specification's state machine. -/
inductive ClaimStep where
  | resolvePath : ClaimStep
  | resolveFlags : ClaimStep
  | stageCreds : ClaimStep
  | createOutput : ClaimStep
  | publish : ClaimStep
  | replaceSource : ClaimStep
  | removeOutput : ClaimStep
deriving Repr, DecidableEq

/-- Which specification pipeline step a trace event belongs to; the
deprecation notice and the legacy-file parse are part of project-path
resolution, and the deferred credential removal is a finalizer, not a
pipeline step. -/
def classify : Step → Option ClaimStep
  | Step.resolveProjectPath => some ClaimStep.resolvePath
  | Step.createTempDir => some ClaimStep.createOutput
  | Step.parseFlags => some ClaimStep.resolveFlags
  | Step.stageCredentials => some ClaimStep.stageCreds
  | Step.publish _ => some ClaimStep.publish
  | Step.sourceRemove => some ClaimStep.replaceSource
  | Step.removeTempDir => some ClaimStep.removeOutput
  | _ => none

/-- The sequence of specification pipeline steps of a trace. -/
def pipelineSteps (t : List Step) : List ClaimStep :=
  t.filterMap classify

def okB {α : Type} : Except GoErr α → Bool
  | Except.ok _ => true
  | Except.error _ => false

/-- Whether the binding block does not abort the build: either the
block is skipped (`ResolveOne` errored) or staging succeeds. -/
def stagingOk (bindings : List Binding) (workingDir : List FileEntry) : Bool :=
  match stageNuGet bindings workingDir with
  | some (Except.error _) => false
  | _ => true

/-- The pipeline-step suffixes a run can append after project-path
resolution: one entry per abort point, with credential staging optional. -/
def stepSuffixes : List (List ClaimStep) :=
  [[],
   [ClaimStep.createOutput, ClaimStep.resolveFlags],
   [ClaimStep.createOutput, ClaimStep.resolveFlags, ClaimStep.stageCreds],
   [ClaimStep.createOutput, ClaimStep.resolveFlags, ClaimStep.publish],
   [ClaimStep.createOutput, ClaimStep.resolveFlags, ClaimStep.stageCreds, ClaimStep.publish],
   [ClaimStep.createOutput, ClaimStep.resolveFlags, ClaimStep.publish, ClaimStep.replaceSource],
   [ClaimStep.createOutput, ClaimStep.resolveFlags, ClaimStep.stageCreds, ClaimStep.publish,
    ClaimStep.replaceSource],
   [ClaimStep.createOutput, ClaimStep.resolveFlags, ClaimStep.publish, ClaimStep.replaceSource,
    ClaimStep.removeOutput],
   [ClaimStep.createOutput, ClaimStep.resolveFlags, ClaimStep.stageCreds, ClaimStep.publish,
    ClaimStep.replaceSource, ClaimStep.removeOutput]]

/-- The pipeline-step suffix of a fully successful run with staging. -/
def fullTailStaged : List ClaimStep :=
  [ClaimStep.createOutput, ClaimStep.resolveFlags, ClaimStep.stageCreds, ClaimStep.publish,
   ClaimStep.replaceSource, ClaimStep.removeOutput]

/-- The pipeline-step suffix of a fully successful run without staging. -/
def fullTailUnstaged : List ClaimStep :=
  [ClaimStep.createOutput, ClaimStep.resolveFlags, ClaimStep.publish,
   ClaimStep.replaceSource, ClaimStep.removeOutput]

/-- The sequences of pipeline steps the orchestrator can realize,
projected to the specification step names: the suffixes of
`stepSuffixes` behind project-path resolution. -/
def c3PossibleTraces : List (List ClaimStep) :=
  stepSuffixes.map (fun s => ClaimStep.resolvePath :: s)

/-- A concrete binding directory holding a `NuGet.Config`. -/
def bNuGet : Binding :=
  { kind := "nuget", path := "/platform/bindings/nuget",
    files := [{ name := "NuGet.Config", contents := "<configuration/>", perm := 0o600 }] }

/-- A second binding of the same kind in another directory. -/
def bNuGet2 : Binding :=
  { bNuGet with path := "/platform/bindings/nuget2" }

/-- A binding of kind nuget whose directory lacks `NuGet.Config`. -/
def bNuGetEmpty : Binding :=
  { kind := "nuget", path := "/platform/bindings/nuget", files := [] }

/-- Collaborator results of a run where every step succeeds, the project
path comes from the environment, and one nuget binding is present. -/
def depsOk : BuildDeps :=
  { envProjectPath := some "src/app", ymlResult := Except.ok "",
    tempDirResult := Except.ok "dotnet-publish-output123",
    flagsResult := Except.ok [], bindings := [bNuGet],
    publishResult := Except.ok (), sourceRemoveResult := Except.ok (),
    removeAllResult := Except.ok () }

/-- Like `depsOk` but with the project-path variable set to the empty
string. -/
def depsEnvEmpty : BuildDeps :=
  { depsOk with envProjectPath := some "" }

/-- Like `depsOk` but with the project-path variable unset and a
non-empty legacy `buildpack.yml` project path. -/
def depsLegacy : BuildDeps :=
  { depsOk with
    envProjectPath := none
    ymlResult := Except.ok "some/project/path" }

/-- Like `depsOk` but with two bindings of kind nuget. -/
def depsTwoBindings : BuildDeps :=
  { depsOk with bindings := [bNuGet, bNuGet2] }

/-- Like `depsOk` but with a failing publish step. -/
def depsPubErr : BuildDeps :=
  { depsOk with publishResult := Except.error "publish failed" }

/-- A working directory with one source file, under a parsable
buildpack version. -/
def inputPlain : BuildInput :=
  { workingDirFiles := [{ name := "main.cs", contents := "class P", perm := 0o644 }],
    buildpackVersion := "1.2.3" }

/-- A build context whose buildpack version is not a semantic version. -/
def inputBadVersion : BuildInput :=
  { workingDirFiles := [], buildpackVersion := "some-version" }

/-! ### Filesystem lemmas -/

theorem lookupFile_removeFile (fs : List FileEntry) (n : String) :
    lookupFile (removeFile fs n) n = none := by
  rw [lookupFile, List.find?_eq_none]
  intro f hf
  rw [removeFile, List.mem_filter] at hf
  simpa using hf.2

theorem removeFile_map_update (fs : List FileEntry) (n s : String) :
    removeFile (fs.map (fun f => if f.name == n then { f with contents := s } else f)) n =
      removeFile fs n := by
  induction fs with
  | nil => rfl
  | cons f t ih =>
    by_cases hb : f.name = n
    · simp only [removeFile, List.map_cons, List.filter_cons] at ih ⊢
      simp [hb] at ih ⊢
      exact ih
    · simp only [removeFile, List.map_cons, List.filter_cons] at ih ⊢
      simp [hb] at ih ⊢
      exact ih

theorem removeFile_writeFile (fs : List FileEntry) (n s : String) (p : Nat) :
    removeFile (writeFile fs n s p) n = removeFile fs n := by
  rw [writeFile]
  cases h : lookupFile fs n with
  | some f => exact removeFile_map_update fs n s
  | none => simp [removeFile, List.filter_append]

theorem lookupFile_append_single {fs : List FileEntry} {n : String}
    (h : lookupFile fs n = none) (en : FileEntry) (hen : (en.name == n) = true) :
    lookupFile (fs ++ [en]) n = some en := by
  induction fs with
  | nil => simp [lookupFile, List.find?, hen]
  | cons f t ih =>
    rw [lookupFile, List.find?_eq_none] at h
    have hf : (f.name == n) = false := by
      have := h f (List.mem_cons_self f t)
      simpa using this
    have ht : lookupFile t n = none := by
      rw [lookupFile, List.find?_eq_none]
      intro x hx
      exact h x (List.mem_cons_of_mem f hx)
    rw [List.cons_append, lookupFile, List.find?_cons_of_neg _ (by simp [hf])]
    exact ih ht

theorem lookupFile_writeFile_none (fs : List FileEntry) (n s : String) (p : Nat)
    (h : lookupFile fs n = none) :
    lookupFile (writeFile fs n s p) n = some { name := n, contents := s, perm := p } := by
  rw [writeFile, h]
  exact lookupFile_append_single h _ (by simp)

/-! ### Characterizations of the binding block -/

theorem stageNuGet_ok_shape {bs : List Binding} {fs fs2 : List FileEntry}
    (h : stageNuGet bs fs = some (Except.ok fs2)) :
    ∃ s, fs2 = writeFile fs nugetConfigName s 0o644 := by
  unfold stageNuGet at h
  cases hr : resolveOne "nuget" bs with
  | error e => rw [hr] at h; exact absurd h (by simp)
  | ok b =>
    rw [hr] at h
    simp only [Option.some.injEq] at h
    unfold setupNuGetConfig at h
    cases hl : lookupFile b.files nugetConfigName with
    | none => rw [hl] at h; exact absurd h (by simp)
    | some f =>
      rw [hl] at h
      simp only [Except.ok.injEq] at h
      exact ⟨f.contents, h.symm⟩

theorem stageNuGet_none_of_notOne {bs : List Binding} (fs : List FileEntry)
    (h : (bs.filter (fun b => b.kind == "nuget")).length ≠ 1) :
    stageNuGet bs fs = none := by
  unfold stageNuGet resolveOne
  cases hf : bs.filter (fun b => b.kind == "nuget") with
  | nil => rfl
  | cons b t =>
    cases t with
    | nil => exact absurd (by rw [hf]; rfl) h
    | cons b2 t2 => rfl

theorem stageNuGet_err_of_missing {bs : List Binding} {b : Binding} (fs : List FileEntry)
    (h1 : bs.filter (fun b => b.kind == "nuget") = [b])
    (h2 : lookupFile b.files nugetConfigName = none) :
    ∃ e, stageNuGet bs fs = some (Except.error e) := by
  have hr : resolveOne "nuget" bs = Except.ok b := by
    unfold resolveOne
    rw [h1]
  refine ⟨"open " ++ b.path ++ "/" ++ nugetConfigName ++ ": no such file or directory", ?_⟩
  simp [stageNuGet, hr, setupNuGetConfig, h2]

/-! ### Trace composition lemmas -/

theorem pipelineSteps_append (t s : List Step) :
    pipelineSteps (t ++ s) = pipelineSteps t ++ pipelineSteps s :=
  List.filterMap_append t s classify

theorem pipelineSteps_finishTrace (staged : Bool) (t : List Step) :
    pipelineSteps (finishTrace staged t) = pipelineSteps t := by
  cases staged <;>
    simp [finishTrace, pipelineSteps, List.filterMap_append, classify]

/-! ### Branch equations of the orchestrator -/

theorem build_env {d : BuildDeps} (c : BuildInput) {p : String}
    (h : d.envProjectPath = some p) :
    Build d c = runFromTemp d c p [Step.resolveProjectPath] := by
  simp [Build, h]

theorem build_yml_err {d : BuildDeps} (c : BuildInput) {e : GoErr}
    (h1 : d.envProjectPath = none) (h2 : d.ymlResult = Except.error e) :
    Build d c =
      ⟨Outcome.err e, [Step.resolveProjectPath, Step.parseBuildpackYML],
        c.workingDirFiles⟩ := by
  simp [Build, h1, h2]

theorem build_yml_empty {d : BuildDeps} (c : BuildInput)
    (h1 : d.envProjectPath = none) (h2 : d.ymlResult = Except.ok "") :
    Build d c = runFromTemp d c "" [Step.resolveProjectPath, Step.parseBuildpackYML] := by
  simp [Build, h1, h2]

theorem build_goes_panicked {d : BuildDeps} {c : BuildInput} {p : String}
    (h1 : d.envProjectPath = none) (h2 : d.ymlResult = Except.ok p) (h3 : p ≠ "")
    (h4 : parseSemVer c.buildpackVersion = none) :
    Build d c =
      ⟨Outcome.panicked, [Step.resolveProjectPath, Step.parseBuildpackYML],
        c.workingDirFiles⟩ := by
  simp [Build, h1, h2, h3, h4]

theorem build_dep {d : BuildDeps} {c : BuildInput} {p : String} {v : SemVer}
    (h1 : d.envProjectPath = none) (h2 : d.ymlResult = Except.ok p) (h3 : p ≠ "")
    (h4 : parseSemVer c.buildpackVersion = some v) :
    Build d c = runFromTemp d c p
      [Step.resolveProjectPath, Step.parseBuildpackYML,
       Step.deprecationNotice (incMajor v)] := by
  simp [Build, h1, h2, h3, h4]

theorem rft_err {d : BuildDeps} (c : BuildInput) (p : String) (t : List Step) {e : GoErr}
    (h : d.tempDirResult = Except.error e) :
    runFromTemp d c p t =
      ⟨Outcome.err ("could not create temp directory: " ++ e), t, c.workingDirFiles⟩ := by
  simp [runFromTemp, h]

theorem rft_ok {d : BuildDeps} (c : BuildInput) (p : String) (t : List Step) {td : String}
    (h : d.tempDirResult = Except.ok td) :
    runFromTemp d c p t = runFromFlags d c p (t ++ [Step.createTempDir]) := by
  simp [runFromTemp, h]

theorem rff_err {d : BuildDeps} (c : BuildInput) (p : String) (t : List Step) {e : GoErr}
    (h : d.flagsResult = Except.error e) :
    runFromFlags d c p t =
      ⟨Outcome.err e, t ++ [Step.parseFlags], c.workingDirFiles⟩ := by
  simp [runFromFlags, h]

theorem rff_skip {d : BuildDeps} {c : BuildInput} (p : String) (t : List Step)
    {fl : List String} (hf : d.flagsResult = Except.ok fl)
    (h : stageNuGet d.bindings c.workingDirFiles = none) :
    runFromFlags d c p t = runTail d p false
      (t ++ [Step.parseFlags, Step.resolveBinding]) c.workingDirFiles := by
  simp [runFromFlags, hf, h]

theorem rff_stageErr {d : BuildDeps} {c : BuildInput} (p : String) (t : List Step)
    {fl : List String} {e : GoErr} (hf : d.flagsResult = Except.ok fl)
    (h : stageNuGet d.bindings c.workingDirFiles = some (Except.error e)) :
    runFromFlags d c p t =
      ⟨Outcome.err e,
        t ++ [Step.parseFlags, Step.resolveBinding, Step.stageCredentials],
        c.workingDirFiles⟩ := by
  simp [runFromFlags, hf, h]

theorem rff_staged {d : BuildDeps} {c : BuildInput} (p : String) (t : List Step)
    {fl : List String} {files2 : List FileEntry} (hf : d.flagsResult = Except.ok fl)
    (h : stageNuGet d.bindings c.workingDirFiles = some (Except.ok files2)) :
    runFromFlags d c p t = runTail d p true
      (t ++ [Step.parseFlags, Step.resolveBinding, Step.stageCredentials]) files2 := by
  simp [runFromFlags, hf, h]

theorem rt_pubErr {d : BuildDeps} (p : String) (staged : Bool) (t : List Step)
    (files : List FileEntry) {e : GoErr} (h : d.publishResult = Except.error e) :
    runTail d p staged t files =
      ⟨Outcome.err e, finishTrace staged (t ++ [Step.publish p]),
        finishFiles staged files⟩ := by
  simp [runTail, h]

theorem rt_srcErr {d : BuildDeps} (p : String) (staged : Bool) (t : List Step)
    (files : List FileEntry) {e : GoErr}
    (hp : d.publishResult = Except.ok ()) (hs : d.sourceRemoveResult = Except.error e) :
    runTail d p staged t files =
      ⟨Outcome.err e, finishTrace staged (t ++ [Step.publish p, Step.sourceRemove]),
        finishFiles staged files⟩ := by
  simp [runTail, hp, hs]

theorem rt_rmErr {d : BuildDeps} (p : String) (staged : Bool) (t : List Step)
    (files : List FileEntry) {e : GoErr}
    (hp : d.publishResult = Except.ok ()) (hs : d.sourceRemoveResult = Except.ok ())
    (hr : d.removeAllResult = Except.error e) :
    runTail d p staged t files =
      ⟨Outcome.err ("could not remove temp directory: " ++ e),
        finishTrace staged (t ++ [Step.publish p, Step.sourceRemove, Step.removeTempDir]),
        finishFiles staged files⟩ := by
  simp [runTail, hp, hs, hr]

theorem rt_ok {d : BuildDeps} (p : String) (staged : Bool) (t : List Step)
    (files : List FileEntry)
    (hp : d.publishResult = Except.ok ()) (hs : d.sourceRemoveResult = Except.ok ())
    (hr : d.removeAllResult = Except.ok ()) :
    runTail d p staged t files =
      ⟨Outcome.ok,
        finishTrace staged (t ++ [Step.publish p, Step.sourceRemove, Step.removeTempDir]),
        finishFiles staged files⟩ := by
  simp [runTail, hp, hs, hr]

/-! ### Shape of the trace appended after project-path resolution -/

theorem finishTrace_append (staged : Bool) (t x : List Step) :
    finishTrace staged (t ++ x) =
      t ++ (if staged then x ++ [Step.removeStagedCredential] else x) := by
  cases staged <;> simp [finishTrace]

theorem tail_steps_good (pp : String) (x : List Step)
    (hx : x ⊆ [Step.publish pp, Step.sourceRemove, Step.removeTempDir,
      Step.removeStagedCredential]) :
    Step.parseBuildpackYML ∉ x ∧ x.filter Step.isDeprecation = [] ∧
      ∀ q, Step.publish q ∈ x → q = pp := by
  refine ⟨fun hmem => ?_, ?_, ?_⟩
  · have := hx hmem
    simp at this
  · rw [List.filter_eq_nil_iff]
    intro a ha
    have := hx ha
    rcases (by simpa using this : a = Step.publish pp ∨ a = Step.sourceRemove ∨
        a = Step.removeTempDir ∨ a = Step.removeStagedCredential) with h | h | h | h <;>
      subst h <;> simp [Step.isDeprecation]
  · intro q hq
    have := hx hq
    simpa using this

theorem rt_shape (d : BuildDeps) (pp : String) (staged : Bool) (t : List Step)
    (files : List FileEntry) :
    ∃ x, x ⊆ [Step.publish pp, Step.sourceRemove, Step.removeTempDir] ∧
      (runTail d pp staged t files).trace = finishTrace staged (t ++ x) := by
  cases hp : d.publishResult with
  | error e =>
    exact ⟨[Step.publish pp], by simp [List.subset_def],
      by rw [rt_pubErr pp staged t files hp]⟩
  | ok u =>
    cases u
    cases hs : d.sourceRemoveResult with
    | error e =>
      exact ⟨[Step.publish pp, Step.sourceRemove], by simp [List.subset_def],
        by rw [rt_srcErr pp staged t files hp hs]⟩
    | ok u2 =>
      cases u2
      cases hr : d.removeAllResult with
      | error e =>
        exact ⟨[Step.publish pp, Step.sourceRemove, Step.removeTempDir],
          by simp [List.subset_def], by rw [rt_rmErr pp staged t files hp hs hr]⟩
      | ok u3 =>
        cases u3
        exact ⟨[Step.publish pp, Step.sourceRemove, Step.removeTempDir],
          by simp [List.subset_def], by rw [rt_ok pp staged t files hp hs hr]⟩

theorem rt_tail (d : BuildDeps) (pp : String) (staged : Bool) (t : List Step)
    (files : List FileEntry) :
    ∃ s, (runTail d pp staged t files).trace = t ++ s ∧
      Step.parseBuildpackYML ∉ s ∧ s.filter Step.isDeprecation = [] ∧
      ∀ q, Step.publish q ∈ s → q = pp := by
  obtain ⟨x, hsub, htr⟩ := rt_shape d pp staged t files
  refine ⟨if staged then x ++ [Step.removeStagedCredential] else x,
    by rw [htr, finishTrace_append], ?_⟩
  have hbig : (if staged then x ++ [Step.removeStagedCredential] else x) ⊆
      [Step.publish pp, Step.sourceRemove, Step.removeTempDir,
       Step.removeStagedCredential] := by
    cases staged with
    | false =>
      simp only [if_neg Bool.false_ne_true]
      exact hsub.trans (by simp [List.subset_def])
    | true =>
      simp only [if_pos rfl]
      exact List.append_subset.mpr ⟨hsub.trans (by simp [List.subset_def]),
        by simp [List.subset_def]⟩
  exact tail_steps_good pp _ hbig

theorem rft_tail (d : BuildDeps) (c : BuildInput) (p : String) (t : List Step) :
    ∃ s, (runFromTemp d c p t).trace = t ++ s ∧
      Step.parseBuildpackYML ∉ s ∧ s.filter Step.isDeprecation = [] ∧
      ∀ q, Step.publish q ∈ s → q = p := by
  cases ht : d.tempDirResult with
  | error e =>
    refine ⟨[], ?_, by simp, by simp, by simp⟩
    rw [rft_err c p t ht]
    simp
  | ok td =>
    rw [rft_ok c p t ht]
    cases hf : d.flagsResult with
    | error e =>
      refine ⟨[Step.createTempDir, Step.parseFlags], ?_, by simp, by simp [Step.isDeprecation],
        by simp⟩
      rw [rff_err c p _ hf]
      simp
    | ok fl =>
      cases hsn : stageNuGet d.bindings c.workingDirFiles with
      | none =>
        rw [rff_skip p _ hf hsn]
        obtain ⟨s, htr, h1, h2, h3⟩ :=
          rt_tail d p false (t ++ [Step.createTempDir] ++ [Step.parseFlags, Step.resolveBinding])
            c.workingDirFiles
        refine ⟨[Step.createTempDir, Step.parseFlags, Step.resolveBinding] ++ s, ?_, ?_, ?_, ?_⟩
        · rw [htr]
          simp
        · simp only [List.mem_append] at *
          rintro (h | h)
          · simp at h
          · exact h1 h
        · rw [List.filter_append, h2]
          simp [Step.isDeprecation]
        · intro q hq
          rcases List.mem_append.mp hq with h | h
          · simp at h
          · exact h3 q h
      | some r =>
        cases r with
        | error e =>
          refine ⟨[Step.createTempDir, Step.parseFlags, Step.resolveBinding,
            Step.stageCredentials], ?_, by simp, by simp [Step.isDeprecation], by simp⟩
          rw [rff_stageErr p _ hf hsn]
          simp
        | ok files2 =>
          rw [rff_staged p _ hf hsn]
          obtain ⟨s, htr, h1, h2, h3⟩ :=
            rt_tail d p true (t ++ [Step.createTempDir] ++
              [Step.parseFlags, Step.resolveBinding, Step.stageCredentials]) files2
          refine ⟨[Step.createTempDir, Step.parseFlags, Step.resolveBinding,
            Step.stageCredentials] ++ s, ?_, ?_, ?_, ?_⟩
          · rw [htr]
            simp
          · simp only [List.mem_append] at *
            rintro (h | h)
            · simp at h
            · exact h1 h
          · rw [List.filter_append, h2]
            simp [Step.isDeprecation]
          · intro q hq
            rcases List.mem_append.mp hq with h | h
            · simp at h
            · exact h3 q h

/-! ### Shape of the projected pipeline-step sequence -/

theorem psteps_pub (pp : String) :
    pipelineSteps [Step.publish pp] = [ClaimStep.publish] := rfl

theorem psteps_pub_src (pp : String) :
    pipelineSteps [Step.publish pp, Step.sourceRemove] =
      [ClaimStep.publish, ClaimStep.replaceSource] := rfl

theorem psteps_pub_src_rm (pp : String) :
    pipelineSteps [Step.publish pp, Step.sourceRemove, Step.removeTempDir] =
      [ClaimStep.publish, ClaimStep.replaceSource, ClaimStep.removeOutput] := rfl

theorem rt_psteps (d : BuildDeps) (pp : String) (staged : Bool) (t : List Step)
    (files : List FileEntry) :
    (pipelineSteps (runTail d pp staged t files).trace =
        pipelineSteps t ++ [ClaimStep.publish] ∨
      pipelineSteps (runTail d pp staged t files).trace =
        pipelineSteps t ++ [ClaimStep.publish, ClaimStep.replaceSource] ∨
      pipelineSteps (runTail d pp staged t files).trace =
        pipelineSteps t ++ [ClaimStep.publish, ClaimStep.replaceSource,
          ClaimStep.removeOutput]) ∧
    ((runTail d pp staged t files).outcome = Outcome.ok →
      pipelineSteps (runTail d pp staged t files).trace =
        pipelineSteps t ++ [ClaimStep.publish, ClaimStep.replaceSource,
          ClaimStep.removeOutput]) := by
  cases hp : d.publishResult with
  | error e =>
    rw [rt_pubErr pp staged t files hp]
    constructor
    · left
      show pipelineSteps (finishTrace staged (t ++ [Step.publish pp])) = _
      rw [pipelineSteps_finishTrace, pipelineSteps_append, psteps_pub]
    · intro hok
      simp at hok
  | ok u =>
    cases u
    cases hs : d.sourceRemoveResult with
    | error e =>
      rw [rt_srcErr pp staged t files hp hs]
      constructor
      · right; left
        show pipelineSteps (finishTrace staged
          (t ++ [Step.publish pp, Step.sourceRemove])) = _
        rw [pipelineSteps_finishTrace, pipelineSteps_append, psteps_pub_src]
      · intro hok
        simp at hok
    | ok u2 =>
      cases u2
      cases hr : d.removeAllResult with
      | error e =>
        rw [rt_rmErr pp staged t files hp hs hr]
        constructor
        · right; right
          show pipelineSteps (finishTrace staged
            (t ++ [Step.publish pp, Step.sourceRemove, Step.removeTempDir])) = _
          rw [pipelineSteps_finishTrace, pipelineSteps_append, psteps_pub_src_rm]
        · intro hok
          simp at hok
      | ok u3 =>
        cases u3
        rw [rt_ok pp staged t files hp hs hr]
        constructor
        · right; right
          show pipelineSteps (finishTrace staged
            (t ++ [Step.publish pp, Step.sourceRemove, Step.removeTempDir])) = _
          rw [pipelineSteps_finishTrace, pipelineSteps_append, psteps_pub_src_rm]
        · intro _
          show pipelineSteps (finishTrace staged
            (t ++ [Step.publish pp, Step.sourceRemove, Step.removeTempDir])) = _
          rw [pipelineSteps_finishTrace, pipelineSteps_append, psteps_pub_src_rm]

theorem rft_psteps (d : BuildDeps) (c : BuildInput) (p : String) (t : List Step) :
    (∃ s, s ∈ stepSuffixes ∧
      pipelineSteps (runFromTemp d c p t).trace = pipelineSteps t ++ s) ∧
    ((runFromTemp d c p t).outcome = Outcome.ok →
      pipelineSteps (runFromTemp d c p t).trace = pipelineSteps t ++ fullTailStaged ∨
      pipelineSteps (runFromTemp d c p t).trace = pipelineSteps t ++ fullTailUnstaged) := by
  cases ht : d.tempDirResult with
  | error e =>
    rw [rft_err c p t ht]
    constructor
    · exact ⟨[], by decide, by simp⟩
    · intro hok
      simp at hok
  | ok td =>
    rw [rft_ok c p t ht]
    cases hf : d.flagsResult with
    | error e =>
      rw [rff_err c p _ hf]
      constructor
      · refine ⟨[ClaimStep.createOutput, ClaimStep.resolveFlags], by decide, ?_⟩
        show pipelineSteps ((t ++ [Step.createTempDir]) ++ [Step.parseFlags]) = _
        rw [pipelineSteps_append, pipelineSteps_append, List.append_assoc]
        rfl
      · intro hok
        simp at hok
    | ok fl =>
      cases hsn : stageNuGet d.bindings c.workingDirFiles with
      | none =>
        rw [rff_skip p _ hf hsn]
        obtain ⟨hdisj, hok⟩ := rt_psteps d p false
          ((t ++ [Step.createTempDir]) ++ [Step.parseFlags, Step.resolveBinding])
          c.workingDirFiles
        have pt2 : pipelineSteps
            ((t ++ [Step.createTempDir]) ++ [Step.parseFlags, Step.resolveBinding]) =
            pipelineSteps t ++ [ClaimStep.createOutput, ClaimStep.resolveFlags] := by
          rw [pipelineSteps_append, pipelineSteps_append, List.append_assoc]
          rfl
        rw [pt2] at hdisj hok
        constructor
        · rcases hdisj with h | h | h
          · exact ⟨[ClaimStep.createOutput, ClaimStep.resolveFlags, ClaimStep.publish],
              by decide, by rw [h, List.append_assoc]; rfl⟩
          · exact ⟨[ClaimStep.createOutput, ClaimStep.resolveFlags, ClaimStep.publish,
              ClaimStep.replaceSource], by decide, by rw [h, List.append_assoc]; rfl⟩
          · exact ⟨[ClaimStep.createOutput, ClaimStep.resolveFlags, ClaimStep.publish,
              ClaimStep.replaceSource, ClaimStep.removeOutput], by decide,
              by rw [h, List.append_assoc]; rfl⟩
        · intro hcond
          right
          rw [hok hcond, List.append_assoc]
          rfl
      | some r =>
        cases r with
        | error e =>
          rw [rff_stageErr p _ hf hsn]
          constructor
          · refine ⟨[ClaimStep.createOutput, ClaimStep.resolveFlags, ClaimStep.stageCreds],
              by decide, ?_⟩
            show pipelineSteps ((t ++ [Step.createTempDir]) ++
              [Step.parseFlags, Step.resolveBinding, Step.stageCredentials]) = _
            rw [pipelineSteps_append, pipelineSteps_append, List.append_assoc]
            rfl
          · intro hok
            simp at hok
        | ok files2 =>
          rw [rff_staged p _ hf hsn]
          obtain ⟨hdisj, hok⟩ := rt_psteps d p true
            ((t ++ [Step.createTempDir]) ++
              [Step.parseFlags, Step.resolveBinding, Step.stageCredentials]) files2
          have pt2 : pipelineSteps ((t ++ [Step.createTempDir]) ++
              [Step.parseFlags, Step.resolveBinding, Step.stageCredentials]) =
              pipelineSteps t ++ [ClaimStep.createOutput, ClaimStep.resolveFlags,
                ClaimStep.stageCreds] := by
            rw [pipelineSteps_append, pipelineSteps_append, List.append_assoc]
            rfl
          rw [pt2] at hdisj hok
          constructor
          · rcases hdisj with h | h | h
            · exact ⟨[ClaimStep.createOutput, ClaimStep.resolveFlags, ClaimStep.stageCreds,
                ClaimStep.publish], by decide, by rw [h, List.append_assoc]; rfl⟩
            · exact ⟨[ClaimStep.createOutput, ClaimStep.resolveFlags, ClaimStep.stageCreds,
                ClaimStep.publish, ClaimStep.replaceSource], by decide,
                by rw [h, List.append_assoc]; rfl⟩
            · exact ⟨[ClaimStep.createOutput, ClaimStep.resolveFlags, ClaimStep.stageCreds,
                ClaimStep.publish, ClaimStep.replaceSource, ClaimStep.removeOutput],
                by decide, by rw [h, List.append_assoc]; rfl⟩
          · intro hcond
            left
            rw [hok hcond, List.append_assoc]
            rfl

/-! ### Further facts about the pipeline tail and the resolution phase -/

theorem rt_files (d : BuildDeps) (pp : String) (staged : Bool) (t : List Step)
    (files : List FileEntry) :
    (runTail d pp staged t files).files = finishFiles staged files := by
  cases hp : d.publishResult with
  | error e => rw [rt_pubErr pp staged t files hp]
  | ok u =>
    cases u
    cases hs : d.sourceRemoveResult with
    | error e => rw [rt_srcErr pp staged t files hp hs]
    | ok u2 =>
      cases u2
      cases hr : d.removeAllResult with
      | error e => rw [rt_rmErr pp staged t files hp hs hr]
      | ok u3 =>
        cases u3
        rw [rt_ok pp staged t files hp hs hr]

theorem rt_mem_shape {d : BuildDeps} {pp : String} {staged : Bool} {t : List Step}
    {files : List FileEntry} {a : Step}
    (ha : a ∈ (runTail d pp staged t files).trace) :
    a ∈ t ∨ a ∈ [Step.publish pp, Step.sourceRemove, Step.removeTempDir,
      Step.removeStagedCredential] := by
  obtain ⟨x, hsub, htr⟩ := rt_shape d pp staged t files
  rw [htr, finishTrace_append] at ha
  rcases List.mem_append.mp ha with h | h
  · exact Or.inl h
  · right
    cases staged with
    | false =>
      simp only [if_neg Bool.false_ne_true] at h
      exact (hsub.trans (by simp [List.subset_def])) h
    | true =>
      simp only [if_pos rfl] at h
      rcases List.mem_append.mp h with h2 | h2
      · exact (hsub.trans (by simp [List.subset_def])) h2
      · simp at h2
        subst h2
        simp

theorem rt_mem_mono {a : Step} (d : BuildDeps) (pp : String) (staged : Bool)
    (t : List Step) (files : List FileEntry) (ha : a ∈ t) :
    a ∈ (runTail d pp staged t files).trace := by
  obtain ⟨x, hsub, htr⟩ := rt_shape d pp staged t files
  rw [htr, finishTrace_append]
  exact List.mem_append_left _ ha

theorem rt_publish_mem (d : BuildDeps) (pp : String) (staged : Bool) (t : List Step)
    (files : List FileEntry) :
    Step.publish pp ∈ (runTail d pp staged t files).trace := by
  cases hp : d.publishResult with
  | error e =>
    rw [rt_pubErr pp staged t files hp, finishTrace_append]
    cases staged <;> simp
  | ok u =>
    cases u
    cases hs : d.sourceRemoveResult with
    | error e =>
      rw [rt_srcErr pp staged t files hp hs, finishTrace_append]
      cases staged <;> simp
    | ok u2 =>
      cases u2
      cases hr : d.removeAllResult with
      | error e =>
        rw [rt_rmErr pp staged t files hp hs hr, finishTrace_append]
        cases staged <;> simp
      | ok u3 =>
        cases u3
        rw [rt_ok pp staged t files hp hs hr, finishTrace_append]
        cases staged <;> simp

theorem rt_removeStaged (d : BuildDeps) (pp : String) (t : List Step)
    (files : List FileEntry) :
    Step.removeStagedCredential ∈ (runTail d pp true t files).trace := by
  obtain ⟨x, hsub, htr⟩ := rt_shape d pp true t files
  rw [htr, finishTrace_append]
  simp

theorem build_cases (d : BuildDeps) (c : BuildInput) :
    (∃ e, Build d c = ⟨Outcome.err e,
        [Step.resolveProjectPath, Step.parseBuildpackYML], c.workingDirFiles⟩) ∨
    (Build d c = ⟨Outcome.panicked,
        [Step.resolveProjectPath, Step.parseBuildpackYML], c.workingDirFiles⟩) ∨
    (∃ p t, Build d c = runFromTemp d c p t ∧
      (t = [Step.resolveProjectPath] ∨
       t = [Step.resolveProjectPath, Step.parseBuildpackYML] ∨
       ∃ v, t = [Step.resolveProjectPath, Step.parseBuildpackYML,
         Step.deprecationNotice (incMajor v)])) := by
  cases henv : d.envProjectPath with
  | some p => exact Or.inr (Or.inr ⟨p, _, build_env c henv, Or.inl rfl⟩)
  | none =>
    cases hyml : d.ymlResult with
    | error e => exact Or.inl ⟨e, build_yml_err c henv hyml⟩
    | ok p =>
      by_cases hp : p = ""
      · subst hp
        exact Or.inr (Or.inr ⟨"", _, build_yml_empty c henv hyml, Or.inr (Or.inl rfl)⟩)
      · cases hsv : parseSemVer c.buildpackVersion with
        | none => exact Or.inr (Or.inl (build_goes_panicked henv hyml hp hsv))
        | some v =>
          exact Or.inr (Or.inr ⟨p, _, build_dep henv hyml hp hsv,
            Or.inr (Or.inr ⟨v, rfl⟩)⟩)

theorem phase_trace_safe {t : List Step}
    (h : t = [Step.resolveProjectPath] ∨
      t = [Step.resolveProjectPath, Step.parseBuildpackYML] ∨
      ∃ v, t = [Step.resolveProjectPath, Step.parseBuildpackYML,
        Step.deprecationNotice (incMajor v)]) :
    Step.stageCredentials ∉ t ∧ Step.resolveBinding ∉ t ∧
    (∀ q, Step.publish q ∉ t) ∧ Step.sourceRemove ∉ t ∧
    Step.removeTempDir ∉ t ∧ Step.createTempDir ∉ t := by
  rcases h with h | h | ⟨v, h⟩ <;> subst h <;>
    refine ⟨by simp, by simp, fun q => by simp, by simp, by simp, by simp⟩

theorem no_publish_any {t : List Step} (h : ∀ q, Step.publish q ∉ t) :
    t.any Step.isPublish = false := by
  rw [List.any_eq_false]
  intro x hx
  cases x <;> simp [Step.isPublish]
  exact (h _) hx

theorem rft_c1 (d : BuildDeps) (c : BuildInput) (p : String) (t : List Step)
    {fs2 : List FileEntry}
    (hstage : stageNuGet d.bindings c.workingDirFiles = some (Except.ok fs2))
    (hreach : Step.stageCredentials ∈ (runFromTemp d c p t).trace)
    (ht : Step.stageCredentials ∉ t) :
    lookupFile (runFromTemp d c p t).files nugetConfigName = none ∧
    Step.removeStagedCredential ∈ (runFromTemp d c p t).trace := by
  cases htd : d.tempDirResult with
  | error e =>
    rw [rft_err c p t htd] at hreach
    exact absurd hreach ht
  | ok td =>
    rw [rft_ok c p t htd] at hreach ⊢
    cases hf : d.flagsResult with
    | error e =>
      rw [rff_err c p _ hf] at hreach
      simp [List.mem_append] at hreach
      exact absurd hreach ht
    | ok fl =>
      rw [rff_staged p _ hf hstage] at hreach ⊢
      constructor
      · rw [rt_files]
        exact lookupFile_removeFile fs2 nugetConfigName
      · exact rt_removeStaged d p _ fs2

theorem rft_c2 (d : BuildDeps) (c : BuildInput) (p : String) (t : List Step)
    (hreach : Step.resolveBinding ∈ (runFromTemp d c p t).trace)
    (ht1 : Step.resolveBinding ∉ t) (ht2 : Step.stageCredentials ∉ t)
    (ht3 : ∀ q, Step.publish q ∉ t) (ht4 : Step.sourceRemove ∉ t) :
    ((d.bindings.filter (fun b => b.kind == "nuget")).length ≠ 1 →
      Step.stageCredentials ∉ (runFromTemp d c p t).trace ∧
      ∃ q, Step.publish q ∈ (runFromTemp d c p t).trace) ∧
    (∀ b, d.bindings.filter (fun b => b.kind == "nuget") = [b] →
      lookupFile b.files nugetConfigName = none →
      (∃ e, (runFromTemp d c p t).outcome = Outcome.err e) ∧
      (∀ q, Step.publish q ∉ (runFromTemp d c p t).trace) ∧
      Step.sourceRemove ∉ (runFromTemp d c p t).trace) := by
  cases htd : d.tempDirResult with
  | error e =>
    rw [rft_err c p t htd] at hreach
    exact absurd hreach ht1
  | ok td =>
    rw [rft_ok c p t htd] at hreach ⊢
    cases hf : d.flagsResult with
    | error e =>
      rw [rff_err c p _ hf] at hreach
      simp [List.mem_append] at hreach
      exact absurd hreach ht1
    | ok fl =>
      constructor
      · intro hlen
        have hnone := stageNuGet_none_of_notOne c.workingDirFiles hlen
        rw [rff_skip p _ hf hnone]
        constructor
        · intro hmem
          rcases rt_mem_shape hmem with h | h
          · simp [List.mem_append] at h
            exact absurd h ht2
          · simp at h
        · exact ⟨p, rt_publish_mem d p false _ c.workingDirFiles⟩
      · intro b hb hmiss
        obtain ⟨e, herr⟩ := stageNuGet_err_of_missing c.workingDirFiles hb hmiss
        rw [rff_stageErr p _ hf herr]
        refine ⟨⟨e, rfl⟩, ?_, ?_⟩
        · intro q hq
          simp [List.mem_append] at hq
          exact absurd hq (ht3 q)
        · intro hq
          simp [List.mem_append] at hq
          exact absurd hq ht4

theorem rft_c6 (d : BuildDeps) (c : BuildInput) (p : String) (t : List Step) (e : GoErr)
    (he : d.publishResult = Except.error e)
    (hreach : (runFromTemp d c p t).trace.any Step.isPublish = true)
    (ht1 : ∀ q, Step.publish q ∉ t) (ht2 : Step.sourceRemove ∉ t) :
    (runFromTemp d c p t).outcome = Outcome.err e ∧
    Step.sourceRemove ∉ (runFromTemp d c p t).trace ∧
    ((runFromTemp d c p t).files = c.workingDirFiles ∨
      ((runFromTemp d c p t).files = removeFile c.workingDirFiles nugetConfigName ∧
        lookupFile (runFromTemp d c p t).files nugetConfigName = none)) := by
  cases htd : d.tempDirResult with
  | error e2 =>
    rw [rft_err c p t htd] at hreach
    rw [no_publish_any ht1] at hreach
    exact Bool.noConfusion hreach
  | ok td =>
    rw [rft_ok c p t htd] at hreach ⊢
    cases hf : d.flagsResult with
    | error e2 =>
      rw [rff_err c p _ hf] at hreach
      simp only [List.any_append] at hreach
      rw [no_publish_any ht1] at hreach
      simp [Step.isPublish] at hreach
    | ok fl =>
      cases hsn : stageNuGet d.bindings c.workingDirFiles with
      | none =>
        rw [rff_skip p _ hf hsn]
        rw [rt_pubErr p false _ c.workingDirFiles he]
        refine ⟨rfl, ?_, Or.inl rfl⟩
        intro hmem
        simp [finishTrace, List.mem_append] at hmem
        exact ht2 hmem
      | some r =>
        cases r with
        | error e2 =>
          rw [rff_stageErr p _ hf hsn] at hreach
          simp only [List.any_append] at hreach
          rw [no_publish_any ht1] at hreach
          simp [Step.isPublish] at hreach
        | ok files2 =>
          rw [rff_staged p _ hf hsn]
          rw [rt_pubErr p true _ files2 he]
          obtain ⟨s, hs2⟩ := stageNuGet_ok_shape hsn
          refine ⟨rfl, ?_, Or.inr ⟨?_, ?_⟩⟩
          · intro hmem
            simp [finishTrace, List.mem_append] at hmem
            exact ht2 hmem
          · show finishFiles true files2 = removeFile c.workingDirFiles nugetConfigName
            rw [hs2]
            exact removeFile_writeFile c.workingDirFiles nugetConfigName s 0o644
          · exact lookupFile_removeFile files2 nugetConfigName

theorem rt_c7 (d : BuildDeps) (pp : String) (staged : Bool) (t : List Step)
    (files : List FileEntry) (ht : Step.removeTempDir ∉ t) :
    ((runTail d pp staged t files).outcome = Outcome.ok →
      Step.removeTempDir ∈ (runTail d pp staged t files).trace ∧
      d.removeAllResult = Except.ok ()) ∧
    (∀ e, d.removeAllResult = Except.error e →
      Step.removeTempDir ∈ (runTail d pp staged t files).trace →
      (runTail d pp staged t files).outcome =
        Outcome.err ("could not remove temp directory: " ++ e)) := by
  cases hp : d.publishResult with
  | error e0 =>
    rw [rt_pubErr pp staged t files hp]
    constructor
    · intro hok
      simp at hok
    · intro e he hmem
      exfalso
      rw [finishTrace_append] at hmem
      rcases List.mem_append.mp hmem with h | h
      · exact ht h
      · cases staged <;> simp at h
  | ok u =>
    cases u
    cases hs : d.sourceRemoveResult with
    | error e0 =>
      rw [rt_srcErr pp staged t files hp hs]
      constructor
      · intro hok
        simp at hok
      · intro e he hmem
        exfalso
        rw [finishTrace_append] at hmem
        rcases List.mem_append.mp hmem with h | h
        · exact ht h
        · cases staged <;> simp at h
    | ok u2 =>
      cases u2
      cases hr : d.removeAllResult with
      | error e0 =>
        rw [rt_rmErr pp staged t files hp hs hr]
        constructor
        · intro hok
          simp at hok
        · intro e he hmem
          injection he with h
          rw [← h]
      | ok u3 =>
        cases u3
        rw [rt_ok pp staged t files hp hs hr]
        constructor
        · intro _
          refine ⟨?_, rfl⟩
          rw [finishTrace_append]
          refine List.mem_append_right _ ?_
          cases staged <;> simp
        · intro e he hmem
          exact Except.noConfusion he

theorem rft_c7 (d : BuildDeps) (c : BuildInput) (p : String) (t : List Step)
    (ht : Step.removeTempDir ∉ t) :
    ((runFromTemp d c p t).outcome = Outcome.ok →
      Step.removeTempDir ∈ (runFromTemp d c p t).trace ∧
      d.removeAllResult = Except.ok ()) ∧
    (∀ e, d.removeAllResult = Except.error e →
      Step.removeTempDir ∈ (runFromTemp d c p t).trace →
      (runFromTemp d c p t).outcome =
        Outcome.err ("could not remove temp directory: " ++ e)) := by
  cases htd : d.tempDirResult with
  | error e2 =>
    rw [rft_err c p t htd]
    constructor
    · intro hok
      simp at hok
    · intro e he hmem
      exact absurd hmem ht
  | ok td =>
    rw [rft_ok c p t htd]
    cases hf : d.flagsResult with
    | error e2 =>
      rw [rff_err c p _ hf]
      constructor
      · intro hok
        simp at hok
      · intro e he hmem
        exfalso
        simp [List.mem_append] at hmem
        exact ht hmem
    | ok fl =>
      cases hsn : stageNuGet d.bindings c.workingDirFiles with
      | none =>
        rw [rff_skip p _ hf hsn]
        refine rt_c7 d p false _ c.workingDirFiles ?_
        intro hmem
        simp [List.mem_append] at hmem
        exact ht hmem
      | some r =>
        cases r with
        | error e2 =>
          rw [rff_stageErr p _ hf hsn]
          constructor
          · intro hok
            simp at hok
          · intro e he hmem
            exfalso
            simp [List.mem_append] at hmem
            exact ht hmem
        | ok files2 =>
          rw [rff_staged p _ hf hsn]
          refine rt_c7 d p true _ files2 ?_
          intro hmem
          simp [List.mem_append] at hmem
          exact ht hmem

theorem rt_c10 (d : BuildDeps) (pp : String) (staged : Bool) (t : List Step)
    (files : List FileEntry) (h1 : Step.removeTempDir ∉ t) :
    (Step.removeTempDir ∈ (runTail d pp staged t files).trace ↔
      (okB d.publishResult = true ∧ okB d.sourceRemoveResult = true)) := by
  cases hp : d.publishResult with
  | error e =>
    rw [rt_pubErr pp staged t files hp]
    constructor
    · intro hmem
      exfalso
      rw [finishTrace_append] at hmem
      rcases List.mem_append.mp hmem with h | h
      · exact h1 h
      · cases staged <;> simp at h
    · rintro ⟨ha, _⟩
      simp [okB] at ha
  | ok u =>
    cases u
    cases hs : d.sourceRemoveResult with
    | error e =>
      rw [rt_srcErr pp staged t files hp hs]
      constructor
      · intro hmem
        exfalso
        rw [finishTrace_append] at hmem
        rcases List.mem_append.mp hmem with h | h
        · exact h1 h
        · cases staged <;> simp at h
      · rintro ⟨_, hb⟩
        simp [okB] at hb
    | ok u2 =>
      cases u2
      cases hr : d.removeAllResult with
      | error e =>
        rw [rt_rmErr pp staged t files hp hs hr]
        constructor
        · intro _
          exact ⟨rfl, rfl⟩
        · intro _
          rw [finishTrace_append]
          refine List.mem_append_right _ ?_
          cases staged <;> simp
      | ok u3 =>
        cases u3
        rw [rt_ok pp staged t files hp hs hr]
        constructor
        · intro _
          exact ⟨rfl, rfl⟩
        · intro _
          rw [finishTrace_append]
          refine List.mem_append_right _ ?_
          cases staged <;> simp

theorem rft_c10 (d : BuildDeps) (c : BuildInput) (p : String) (t : List Step)
    (h1 : Step.removeTempDir ∉ t) (h2 : Step.createTempDir ∉ t) :
    (Step.removeTempDir ∈ (runFromTemp d c p t).trace ↔
      (Step.createTempDir ∈ (runFromTemp d c p t).trace ∧ okB d.flagsResult = true ∧
       stagingOk d.bindings c.workingDirFiles = true ∧ okB d.publishResult = true ∧
       okB d.sourceRemoveResult = true)) := by
  cases htd : d.tempDirResult with
  | error e =>
    rw [rft_err c p t htd]
    constructor
    · intro hmem
      exact absurd hmem h1
    · rintro ⟨hc, _⟩
      exact absurd hc h2
  | ok td =>
    rw [rft_ok c p t htd]
    cases hf : d.flagsResult with
    | error e =>
      rw [rff_err c p _ hf]
      constructor
      · intro hmem
        exfalso
        simp [List.mem_append] at hmem
        exact h1 hmem
      · rintro ⟨_, hfl, _⟩
        simp [okB] at hfl
    | ok fl =>
      cases hsn : stageNuGet d.bindings c.workingDirFiles with
      | none =>
        have hok : stagingOk d.bindings c.workingDirFiles = true := by
          unfold stagingOk
          rw [hsn]
        rw [rff_skip p _ hf hsn]
        rw [rt_c10 d p false _ c.workingDirFiles
          (by intro hmem; simp [List.mem_append] at hmem; exact h1 hmem)]
        constructor
        · rintro ⟨hpub, hsrc⟩
          refine ⟨?_, rfl, hok, hpub, hsrc⟩
          refine rt_mem_mono d p false _ c.workingDirFiles ?_
          simp
        · rintro ⟨_, _, _, hpub, hsrc⟩
          exact ⟨hpub, hsrc⟩
      | some r =>
        cases r with
        | error e =>
          have hbad : stagingOk d.bindings c.workingDirFiles = false := by
            unfold stagingOk
            rw [hsn]
          rw [rff_stageErr p _ hf hsn]
          constructor
          · intro hmem
            exfalso
            simp [List.mem_append] at hmem
            exact h1 hmem
          · rintro ⟨_, _, hst, _⟩
            rw [hbad] at hst
            exact Bool.noConfusion hst
        | ok files2 =>
          have hok : stagingOk d.bindings c.workingDirFiles = true := by
            unfold stagingOk
            rw [hsn]
          rw [rff_staged p _ hf hsn]
          rw [rt_c10 d p true _ files2
            (by intro hmem; simp [List.mem_append] at hmem; exact h1 hmem)]
          constructor
          · rintro ⟨hpub, hsrc⟩
            refine ⟨?_, rfl, hok, hpub, hsrc⟩
            refine rt_mem_mono d p true _ files2 ?_
            simp
          · rintro ⟨_, _, _, hpub, hsrc⟩
            exact ⟨hpub, hsrc⟩

/-! ### The claims -/

/-- C1: whenever the credential staging step actually copied a
`NuGet.Config` into the working directory (staging was reached and its
copy succeeded), the copy is absent from the working directory when
`Build` returns and the deferred removal ran — on the success path and
on every failure path of the later steps (publish, source replacement,
temp-directory removal). -/
theorem c1_staged_credential_removed (d : BuildDeps) (c : BuildInput)
    (fs2 : List FileEntry)
    (hreach : Step.stageCredentials ∈ (Build d c).trace)
    (hstage : stageNuGet d.bindings c.workingDirFiles = some (Except.ok fs2)) :
    lookupFile (Build d c).files nugetConfigName = none ∧
    Step.removeStagedCredential ∈ (Build d c).trace := by
  rcases build_cases d c with ⟨e, hb⟩ | hb | ⟨p, t, hb, hph⟩
  · rw [hb] at hreach
    simp at hreach
  · rw [hb] at hreach
    simp at hreach
  · rw [hb] at hreach ⊢
    exact rft_c1 d c p t hstage hreach (phase_trace_safe hph).1

/-- C1 witness: the concrete successful run that stages `bNuGet`. -/
theorem c1_witness :
    lookupFile (Build depsOk inputPlain).files nugetConfigName = none ∧
    Step.removeStagedCredential ∈ (Build depsOk inputPlain).trace :=
  c1_staged_credential_removed depsOk inputPlain
    (writeFile inputPlain.workingDirFiles nugetConfigName "<configuration/>" 0o644)
    (by decide) (by decide)

/-- C2 counterexample: with two bindings of kind nuget the build does
not abort — `Build` swallows the `ResolveOne` error behind its
`if err == nil` guard, skips staging, runs the publish step and
succeeds, contradicting the claim that more than one binding is a fatal
binding-resolution error. -/
theorem c2_counterexample :
    (depsTwoBindings.bindings.filter (fun b => b.kind == "nuget")).length = 2 ∧
    (Build depsTwoBindings inputPlain).outcome = Outcome.ok ∧
    Step.stageCredentials ∉ (Build depsTwoBindings inputPlain).trace ∧
    Step.publish "src/app" ∈ (Build depsTwoBindings inputPlain).trace := by
  decide

/-- C2 (amended): when the binding lookup runs, a number of nuget
bindings different from one (zero or several) makes the lookup error be
swallowed — staging is skipped and the pipeline continues into the
publish step; only a single nuget binding whose directory lacks
`NuGet.Config` aborts the build with an error before publish and source
replacement run. -/
theorem c2_binding_resolution (d : BuildDeps) (c : BuildInput)
    (hreach : Step.resolveBinding ∈ (Build d c).trace) :
    ((d.bindings.filter (fun b => b.kind == "nuget")).length ≠ 1 →
      Step.stageCredentials ∉ (Build d c).trace ∧
      ∃ q, Step.publish q ∈ (Build d c).trace) ∧
    (∀ b, d.bindings.filter (fun b => b.kind == "nuget") = [b] →
      lookupFile b.files nugetConfigName = none →
      (∃ e, (Build d c).outcome = Outcome.err e) ∧
      (∀ q, Step.publish q ∉ (Build d c).trace) ∧
      Step.sourceRemove ∉ (Build d c).trace) := by
  rcases build_cases d c with ⟨e, hb⟩ | hb | ⟨p, t, hb, hph⟩
  · rw [hb] at hreach
    simp at hreach
  · rw [hb] at hreach
    simp at hreach
  · rw [hb] at hreach ⊢
    obtain ⟨hsc, hrb, hpb, hsr, _, _⟩ := phase_trace_safe hph
    exact rft_c2 d c p t hreach hrb hsc hpb hsr

/-- C2 witness: the amended theorem applied to the two-binding run. -/
theorem c2_witness :
    Step.stageCredentials ∉ (Build depsTwoBindings inputPlain).trace ∧
    ∃ q, Step.publish q ∈ (Build depsTwoBindings inputPlain).trace :=
  (c2_binding_resolution depsTwoBindings inputPlain (by decide)).1 (by decide)

/-- C3 counterexample: a fully successful staged run performs the steps
in the order ResolveProjectPath, CreateOutputLocation, ResolveFlags,
StageCredentials, Publish, ReplaceSource, RemoveOutputLocation — the
ephemeral output directory is created before flag parsing and staging,
not between StageCredentials and Publish as the claim orders it. -/
theorem c3_counterexample :
    pipelineSteps (Build depsOk inputPlain).trace =
      [ClaimStep.resolvePath, ClaimStep.createOutput, ClaimStep.resolveFlags,
       ClaimStep.stageCreds, ClaimStep.publish, ClaimStep.replaceSource,
       ClaimStep.removeOutput] ∧
    pipelineSteps (Build depsOk inputPlain).trace ≠
      [ClaimStep.resolvePath, ClaimStep.resolveFlags, ClaimStep.stageCreds,
       ClaimStep.createOutput, ClaimStep.publish, ClaimStep.replaceSource,
       ClaimStep.removeOutput] := by
  decide

/-- C3 (amended): the side-effecting steps occur in the order
ResolveProjectPath, CreateOutputLocation, ResolveFlags, StageCredentials
(optional), Publish, ReplaceSource, RemoveOutputLocation — every
realizable projected trace is an order-respecting prefix of that
sequence (each step running only when all preceding steps succeeded),
and a successful build realizes the whole sequence, with or without the
optional staging step. -/
theorem c3_pipeline_order (d : BuildDeps) (c : BuildInput) :
    pipelineSteps (Build d c).trace ∈ c3PossibleTraces ∧
    ((Build d c).outcome = Outcome.ok →
      pipelineSteps (Build d c).trace = ClaimStep.resolvePath :: fullTailStaged ∨
      pipelineSteps (Build d c).trace = ClaimStep.resolvePath :: fullTailUnstaged) := by
  rcases build_cases d c with ⟨e, hb⟩ | hb | ⟨p, t, hb, hph⟩
  · rw [hb]
    constructor
    · show pipelineSteps [Step.resolveProjectPath, Step.parseBuildpackYML] ∈ c3PossibleTraces
      decide
    · intro hok
      simp at hok
  · rw [hb]
    constructor
    · show pipelineSteps [Step.resolveProjectPath, Step.parseBuildpackYML] ∈ c3PossibleTraces
      decide
    · intro hok
      simp at hok
  · rw [hb]
    obtain ⟨⟨s, hs, htr⟩, hok⟩ := rft_psteps d c p t
    have hpt : pipelineSteps t = [ClaimStep.resolvePath] := by
      rcases hph with h | h | ⟨v, h⟩ <;> subst h <;> rfl
    rw [hpt] at htr hok
    constructor
    · rw [htr]
      show ClaimStep.resolvePath :: s ∈ c3PossibleTraces
      exact List.mem_map_of_mem _ hs
    · intro hcond
      rcases hok hcond with h | h
      · left
        rw [h]
        rfl
      · right
        rw [h]
        rfl

/-- C3 witness: the successful staged run realizes the full order. -/
theorem c3_witness :
    pipelineSteps (Build depsOk inputPlain).trace =
      ClaimStep.resolvePath :: fullTailStaged ∨
    pipelineSteps (Build depsOk inputPlain).trace =
      ClaimStep.resolvePath :: fullTailUnstaged :=
  (c3_pipeline_order depsOk inputPlain).2 (by decide)

/-- C4: when the project-path environment variable is set — even to the
empty string — the legacy `buildpack.yml` is never parsed, no
deprecation notice is emitted, and any publish invocation receives the
variable's value as the project path. -/
theorem c4_env_override (d : BuildDeps) (c : BuildInput) (p : String)
    (h : d.envProjectPath = some p) :
    Step.parseBuildpackYML ∉ (Build d c).trace ∧
    (Build d c).trace.filter Step.isDeprecation = [] ∧
    (∀ q, Step.publish q ∈ (Build d c).trace → q = p) := by
  rw [build_env c h]
  obtain ⟨s, htr, h1, h2, h3⟩ := rft_tail d c p [Step.resolveProjectPath]
  rw [htr]
  refine ⟨?_, ?_, ?_⟩
  · intro hmem
    rcases List.mem_append.mp hmem with hm | hm
    · simp at hm
    · exact h1 hm
  · rw [List.filter_append, h2]
    rfl
  · intro q hq
    rcases List.mem_append.mp hq with hm | hm
    · simp at hm
    · exact h3 q hm

/-- C4 witness: a run with the variable set to the empty string. -/
theorem c4_witness :
    Step.parseBuildpackYML ∉ (Build depsEnvEmpty inputPlain).trace ∧
    (Build depsEnvEmpty inputPlain).trace.filter Step.isDeprecation = [] ∧
    (∀ q, Step.publish q ∈ (Build depsEnvEmpty inputPlain).trace → q = "") :=
  c4_env_override depsEnvEmpty inputPlain "" (by decide)

/-- C5: when the environment variable is unset, the legacy
`buildpack.yml` yields a non-empty project path, and the buildpack
version parses, exactly one deprecation notice is emitted, and the
version it references is `IncMajor` of the buildpack version: the major
component incremented, minor and patch reset to zero. -/
theorem c5_deprecation_once (d : BuildDeps) (c : BuildInput) (p : String) (v : SemVer)
    (h1 : d.envProjectPath = none) (h2 : d.ymlResult = Except.ok p) (h3 : p ≠ "")
    (h4 : parseSemVer c.buildpackVersion = some v) :
    (Build d c).trace.filter Step.isDeprecation =
      [Step.deprecationNotice (incMajor v)] := by
  rw [build_dep h1 h2 h3 h4]
  obtain ⟨s, htr, hh1, hh2, hh3⟩ := rft_tail d c p
    [Step.resolveProjectPath, Step.parseBuildpackYML,
     Step.deprecationNotice (incMajor v)]
  rw [htr, List.filter_append, hh2]
  rfl

/-- C5 witness: version `1.2.3` yields a notice referencing `2.0.0`. -/
theorem c5_witness :
    (Build depsLegacy inputPlain).trace.filter Step.isDeprecation =
      [Step.deprecationNotice
        { major := 2, minor := 0, patch := 0, prerel := "", buildMeta := "" }] :=
  c5_deprecation_once depsLegacy inputPlain "some/project/path"
    { major := 1, minor := 2, patch := 3, prerel := "", buildMeta := "" }
    (by decide) (by decide) (by decide) (by decide)

/-- C6: if the publish step runs and fails, the source-replacement step
is never invoked, the publish error is returned to the caller
unmodified, and the working directory — as mutated by the orchestrator
itself; the collaborators contractually leave it alone — equals its
pre-build state except for a staged-then-removed `NuGet.Config`. -/
theorem c6_publish_failure (d : BuildDeps) (c : BuildInput) (e : GoErr)
    (hreach : (Build d c).trace.any Step.isPublish = true)
    (he : d.publishResult = Except.error e) :
    (Build d c).outcome = Outcome.err e ∧
    Step.sourceRemove ∉ (Build d c).trace ∧
    ((Build d c).files = c.workingDirFiles ∨
      ((Build d c).files = removeFile c.workingDirFiles nugetConfigName ∧
        lookupFile (Build d c).files nugetConfigName = none)) := by
  rcases build_cases d c with ⟨e2, hb⟩ | hb | ⟨p, t, hb, hph⟩
  · rw [hb] at hreach
    simp [Step.isPublish] at hreach
  · rw [hb] at hreach
    simp [Step.isPublish] at hreach
  · rw [hb] at hreach ⊢
    obtain ⟨_, _, hpb, hsr, _, _⟩ := phase_trace_safe hph
    exact rft_c6 d c p t e he hreach hpb hsr

/-- C6 witness: a staged run whose publish step fails. -/
theorem c6_witness :
    (Build depsPubErr inputPlain).outcome = Outcome.err "publish failed" ∧
    Step.sourceRemove ∉ (Build depsPubErr inputPlain).trace ∧
    ((Build depsPubErr inputPlain).files = inputPlain.workingDirFiles ∨
      ((Build depsPubErr inputPlain).files =
          removeFile inputPlain.workingDirFiles nugetConfigName ∧
        lookupFile (Build depsPubErr inputPlain).files nugetConfigName = none)) :=
  c6_publish_failure depsPubErr inputPlain "publish failed" (by decide) (by decide)

/-- C7: a successful build ran the removal of the ephemeral output
directory and `os.RemoveAll` succeeded; and when the removal step runs
but `os.RemoveAll` fails, `Build` returns the error wrapped with
context ("could not remove temp directory") rather than success. -/
theorem c7_output_dir_lifecycle (d : BuildDeps) (c : BuildInput) :
    ((Build d c).outcome = Outcome.ok →
      Step.removeTempDir ∈ (Build d c).trace ∧
      d.removeAllResult = Except.ok ()) ∧
    (∀ e, d.removeAllResult = Except.error e →
      Step.removeTempDir ∈ (Build d c).trace →
      (Build d c).outcome =
        Outcome.err ("could not remove temp directory: " ++ e)) := by
  rcases build_cases d c with ⟨e2, hb⟩ | hb | ⟨p, t, hb, hph⟩
  · rw [hb]
    constructor
    · intro hok
      simp at hok
    · intro e he hmem
      simp at hmem
  · rw [hb]
    constructor
    · intro hok
      simp at hok
    · intro e he hmem
      simp at hmem
  · rw [hb]
    exact rft_c7 d c p t (phase_trace_safe hph).2.2.2.2.1

/-- C7 witness: the successful run removed its output directory. -/
theorem c7_witness :
    Step.removeTempDir ∈ (Build depsOk inputPlain).trace ∧
    depsOk.removeAllResult = Except.ok () :=
  (c7_output_dir_lifecycle depsOk inputPlain).1 (by decide)

/-- C8 counterexample: `setupNuGetConfig` creates the working-directory
copy of the credential file with permission bits `0o644`, whose
other-users read bit (`0o004`) is set — world-readable, not a
restrictive mode. -/
theorem c8_counterexample :
    setupNuGetConfig bNuGet [] =
      Except.ok
        [{ name := "NuGet.Config", contents := "<configuration/>", perm := 0o644 }] ∧
    0o644 &&& 0o004 ≠ 0 := by
  decide

/-- C8 (amended): a freshly created working-directory copy of the
credential file carries permission bits `0o644` (owner read/write,
group and others read) — world-readable, not a restrictive mode. -/
theorem c8_world_readable (b : Binding) (files fs : List FileEntry)
    (h1 : setupNuGetConfig b files = Except.ok fs)
    (h2 : lookupFile files nugetConfigName = none) :
    ∃ s, lookupFile fs nugetConfigName =
      some { name := nugetConfigName, contents := s, perm := 0o644 } := by
  unfold setupNuGetConfig at h1
  cases hl : lookupFile b.files nugetConfigName with
  | none =>
    rw [hl] at h1
    exact absurd h1 (by simp)
  | some f =>
    rw [hl] at h1
    simp only [Except.ok.injEq] at h1
    subst h1
    exact ⟨f.contents,
      lookupFile_writeFile_none files nugetConfigName f.contents 0o644 h2⟩

/-- C8 witness: staging `bNuGet` into an empty working directory. -/
theorem c8_witness :
    ∃ s, lookupFile
        (writeFile [] nugetConfigName "<configuration/>" 0o644) nugetConfigName =
      some { name := nugetConfigName, contents := s, perm := 0o644 } :=
  c8_world_readable bNuGet []
    (writeFile [] nugetConfigName "<configuration/>" 0o644) (by decide) (by decide)

/-- C9: a concrete build where the environment variable is unset, the
legacy file yields a non-empty project path, and the buildpack version
string `"some-version"` is not a valid semantic version: `Build` ends in
the panic outcome (`semver.MustParse` panics) instead of returning an
error value to the caller. -/
theorem c9_mustparse_panics :
    depsLegacy.envProjectPath = none ∧
    depsLegacy.ymlResult = Except.ok "some/project/path" ∧
    parseSemVer inputBadVersion.buildpackVersion = none ∧
    (Build depsLegacy inputBadVersion).outcome = Outcome.panicked := by
  decide

/-- C10: the removal of the ephemeral output directory runs exactly when
every step after its creation (flag parsing, credential staging,
publish, source replacement) succeeded — on any failure of those steps
the directory is not removed before `Build` returns. -/
theorem c10_removal_only_on_success (d : BuildDeps) (c : BuildInput) :
    Step.removeTempDir ∈ (Build d c).trace ↔
      (Step.createTempDir ∈ (Build d c).trace ∧ okB d.flagsResult = true ∧
       stagingOk d.bindings c.workingDirFiles = true ∧
       okB d.publishResult = true ∧ okB d.sourceRemoveResult = true) := by
  rcases build_cases d c with ⟨e2, hb⟩ | hb | ⟨p, t, hb, hph⟩
  · rw [hb]
    constructor
    · intro hmem
      simp at hmem
    · rintro ⟨hc, _⟩
      simp at hc
  · rw [hb]
    constructor
    · intro hmem
      simp at hmem
    · rintro ⟨hc, _⟩
      simp at hc
  · rw [hb]
    obtain ⟨_, _, _, _, h5, h6⟩ := phase_trace_safe hph
    exact rft_c10 d c p t h5 h6

/-- C10 witness: the successful run satisfies both iff sides. -/
theorem c10_witness :
    Step.removeTempDir ∈ (Build depsOk inputPlain).trace :=
  (c10_removal_only_on_success depsOk inputPlain).mpr (by decide)
